import Mathlib

/-!
Shallow embedding of the `rdmahandler` repository: the C core
(`rdma_operations`: socket synchronization, completion polling, the
queue-pair state machine, resource creation and teardown) and the Go
handler layer (`Write`, `Read`, `initRDMAConnection`, `syncData`).
Machine integers are modelled as `Nat` with explicit bounds; buffers are
`List Nat` of byte values; fallible C calls are driven by explicit
success/failure environments.
-/

namespace Rdma

/-- Little-endian byte decomposition of a natural number into `n` bytes,
mirroring the in-memory layout of a `uintN_t` on the little-endian host
selected by the source's `__BYTE_ORDER == __LITTLE_ENDIAN` branch. -/
def toBytesLE : Nat → Nat → List Nat
  | 0, _ => []
  | n + 1, x => x % 256 :: toBytesLE n (x / 256)

/-- Recompose a little-endian byte list into a natural number. -/
def fromBytesLE : List Nat → Nat
  | [] => 0
  | b :: bs => b + 256 * fromBytesLE bs

/-- Byte swap of an `n`-byte value, the semantics of `bswap_16`,
`bswap_32` and `bswap_64` from `<byteswap.h>`. -/
def bswap (n : Nat) (x : Nat) : Nat :=
  fromBytesLE (toBytesLE n x).reverse

/-- `htonll` from `rdma_operations.h` (little-endian host branch). -/
def htonll (x : Nat) : Nat := bswap 8 x

/-- `ntohll` from `rdma_operations.h` (little-endian host branch). -/
def ntohll (x : Nat) : Nat := bswap 8 x

/-- `htonl` on a little-endian host. -/
def htonl (x : Nat) : Nat := bswap 4 x

/-- `ntohl` on a little-endian host. -/
def ntohl (x : Nat) : Nat := bswap 4 x

/-- `htons` on a little-endian host. -/
def htons (x : Nat) : Nat := bswap 2 x

/-- `ntohs` on a little-endian host. -/
def ntohs (x : Nat) : Nat := bswap 2 x

/-- `struct cm_con_data_t`: the packed 34-byte metadata descriptor
exchanged during connection establishment (64-bit buffer address, 32-bit
remote key, 32-bit queue-pair number, 16-bit local identifier, 16 raw
GID bytes). -/
structure CmConData where
  addr : Nat
  rkey : Nat
  qp_num : Nat
  lid : Nat
  gid : List Nat
  deriving DecidableEq, Repr

/-- The encoding of the local descriptor performed by `connect_qp`
(part_003 lines 882-890): `htonll` on the address, `htonl` on the remote
key and queue-pair number, `htons` on the local identifier, and the 16
GID bytes copied raw by `memcpy` without byte swap. -/
def encodeLocalConData (d : CmConData) : CmConData :=
  { addr := htonll d.addr
    rkey := htonl d.rkey
    qp_num := htonl d.qp_num
    lid := htons d.lid
    gid := d.gid }

/-- The decoding of the received descriptor performed by `connect_qp`
(part_003 lines 902-908): `ntohll`, `ntohl`, `ntohl`, `ntohs`, and a raw
`memcpy` of the GID bytes. -/
def decodeRemoteConData (t : CmConData) : CmConData :=
  { addr := ntohll t.addr
    rkey := ntohl t.rkey
    qp_num := ntohl t.qp_num
    lid := ntohs t.lid
    gid := t.gid }

/-- `res->remote_props` as stored by `connect_qp` when the socket
exchange delivers the peer's encoded descriptor block intact. -/
def remotePropsOf (peerLocal : CmConData) : CmConData :=
  decodeRemoteConData (encodeLocalConData peerLocal)

theorem length_toBytesLE (n x : Nat) : (toBytesLE n x).length = n := by
  induction n generalizing x with
  | zero => rfl
  | succ n ih => simp [toBytesLE, ih]

theorem mem_toBytesLE_lt (n x : Nat) : ∀ b ∈ toBytesLE n x, b < 256 := by
  induction n generalizing x with
  | zero => intro b hb; simp [toBytesLE] at hb
  | succ n ih =>
    intro b hb
    simp only [toBytesLE, List.mem_cons] at hb
    rcases hb with h | h
    · subst h; exact Nat.mod_lt _ (by norm_num)
    · exact ih _ b h

theorem mod_mul_decomp (a b x : Nat) :
    x % a + a * (x / a % b) = x % (a * b) := by
  rw [← Nat.mod_mod_of_dvd x (dvd_mul_right a b),
    ← Nat.mod_mul_right_div_self x a b]
  exact Nat.mod_add_div _ _

theorem fromBytesLE_toBytesLE (n x : Nat) :
    fromBytesLE (toBytesLE n x) = x % 256 ^ n := by
  induction n generalizing x with
  | zero => simp [toBytesLE, fromBytesLE, Nat.mod_one]
  | succ n ih =>
    have hmul : (256 : Nat) ^ (n + 1) = 256 * 256 ^ n := by
      rw [pow_succ]; ring
    rw [toBytesLE, fromBytesLE, ih, hmul]
    exact mod_mul_decomp 256 (256 ^ n) x

theorem toBytesLE_fromBytesLE (l : List Nat) (h : ∀ b ∈ l, b < 256) :
    toBytesLE l.length (fromBytesLE l) = l := by
  induction l with
  | nil => rfl
  | cons b bs ih =>
    have hb : b < 256 := h b (List.mem_cons_self _ _)
    have hmod : (b + 256 * fromBytesLE bs) % 256 = b := by
      rw [Nat.add_mul_mod_self_left, Nat.mod_eq_of_lt hb]
    have hdiv : (b + 256 * fromBytesLE bs) / 256 = fromBytesLE bs := by
      rw [Nat.add_mul_div_left _ _ (by norm_num : (0:Nat) < 256),
        Nat.div_eq_of_lt hb, Nat.zero_add]
    simp only [List.length_cons, toBytesLE, fromBytesLE, hmod, hdiv]
    rw [ih (fun x hx => h x (List.mem_cons_of_mem _ hx))]

theorem bswap_bswap (n x : Nat) (h : x < 256 ^ n) : bswap n (bswap n x) = x := by
  unfold bswap
  have hlen : (toBytesLE n x).reverse.length = n := by
    rw [List.length_reverse, length_toBytesLE]
  have hmem : ∀ b ∈ (toBytesLE n x).reverse, b < 256 := by
    intro b hb
    exact mem_toBytesLE_lt n x b (List.mem_reverse.mp hb)
  have hround := toBytesLE_fromBytesLE (toBytesLE n x).reverse hmem
  rw [hlen] at hround
  rw [hround, List.reverse_reverse, fromBytesLE_toBytesLE,
    Nat.mod_eq_of_lt h]

/-- C2: for every peer descriptor with in-range fields, decoding as done
by `connect_qp` inverts the peer's local encoding field-for-field: the
64-bit address via `htonll`/`ntohll`, the 32-bit remote key and
queue-pair number via `htonl`/`ntohl`, the 16-bit local identifier via
`htons`/`ntohs`, and the 16 GID bytes copied raw — so the stored
`remote_props` equals the peer's local descriptor. -/
theorem C2_remote_props_roundtrip (d : CmConData)
    (ha : d.addr < 2 ^ 64) (hr : d.rkey < 2 ^ 32)
    (hq : d.qp_num < 2 ^ 32) (hl : d.lid < 2 ^ 16) :
    remotePropsOf d = d := by
  have h64 : (256 : Nat) ^ 8 = 2 ^ 64 := by norm_num
  have h32 : (256 : Nat) ^ 4 = 2 ^ 32 := by norm_num
  have h16 : (256 : Nat) ^ 2 = 2 ^ 16 := by norm_num
  cases d with
  | mk addr rkey qpn lid gid =>
    simp only [remotePropsOf, decodeRemoteConData, encodeLocalConData,
      ntohll, htonll, ntohl, htonl, ntohs, htons, CmConData.mk.injEq] at *
    exact ⟨bswap_bswap 8 addr (h64 ▸ ha), bswap_bswap 4 rkey (h32 ▸ hr),
      bswap_bswap 4 qpn (h32 ▸ hq), bswap_bswap 2 lid (h16 ▸ hl), trivial⟩

/-- Witness for C2 at a concrete descriptor. -/
theorem C2_remote_props_roundtrip_witness :
    remotePropsOf
      { addr := 140721578342400, rkey := 305419896, qp_num := 73, lid := 7,
        gid := [0,1,2,3,4,5,6,7,8,9,10,11,12,13,14,15] } =
      { addr := 140721578342400, rkey := 305419896, qp_num := 73, lid := 7,
        gid := [0,1,2,3,4,5,6,7,8,9,10,11,12,13,14,15] } :=
  C2_remote_props_roundtrip _ (by norm_num) (by norm_num) (by norm_num)
    (by norm_num)

/-- The `MSG` banner string literal from `rdma_operations.h`. -/
def MSG : String :=
  "******************************************************************************/"

/-- `MSG_SIZE`, the build-time buffer capacity: `strlen(MSG) + 6`. -/
def MSG_SIZE : Nat := MSG.length + 6

/-- `strcpy(res->buf, contents)` as performed by the Go `Write`
(handler.go line 116): the payload bytes and a terminating 0 byte are
written at the start of the buffer; bytes past the terminator keep their
previous values. -/
def strcpyBuf (buf payload : List Nat) : List Nat :=
  payload ++ 0 :: buf.drop (payload.length + 1)

/-- `C.GoString(res->buf)` (handler.go line 164): the buffer interpreted
as text up to its first 0 terminator byte. -/
def goString (buf : List Nat) : List Nat :=
  buf.takeWhile (fun b => b != 0)

/-- The registered buffers of the two connected peers. -/
structure TwoPeer where
  bufA : List Nat
  bufB : List Nat
  deriving DecidableEq, Repr

/-- A one-sided RDMA transfer of `MSG_SIZE` bytes (the `sge.length` used
by `post_send`) from the source buffer into the destination buffer. -/
def rdmaCopy (src dst : List Nat) : List Nat :=
  src.take MSG_SIZE ++ dst.drop MSG_SIZE

/-- The data path of a successful `Write` on peer A (handler.go lines
109-128): `strcpy` the payload into A's registered buffer, then post an
RDMA WRITE depositing A's `MSG_SIZE` buffer bytes into B's buffer at the
remote address from `remote_props`. The bracketing barriers and the
completion poll succeed by assumption of a successful call. -/
def handlerWrite (payload : List Nat) (st : TwoPeer) : TwoPeer :=
  let a := strcpyBuf st.bufA payload
  { bufA := a, bufB := rdmaCopy a st.bufB }

/-- The data path of a successful `Read` on peer B (handler.go lines
151-165): post an RDMA READ pulling A's buffer contents into B's local
buffer, then return the local buffer up to its first terminator. -/
def handlerRead (st : TwoPeer) : TwoPeer × List Nat :=
  let b := rdmaCopy st.bufA st.bufB
  ({ st with bufB := b }, goString b)

theorem takeWhile_ne_append_zero (payload rest : List Nat)
    (hz : 0 ∉ payload) :
    (payload ++ 0 :: rest).takeWhile (fun b => b != 0) = payload := by
  induction payload with
  | nil => simp
  | cons a l ih =>
    have ha : a ≠ 0 := fun h => hz (by simp [h])
    simp only [List.cons_append, List.takeWhile_cons, bne_iff_ne, ne_eq, ha,
      not_false_eq_true, if_true, List.cons.injEq, true_and, if_pos]
    exact ih (fun h => hz (List.mem_cons_of_mem _ h))

theorem goString_strcpy (buf payload : List Nat) (hz : 0 ∉ payload) :
    goString (strcpyBuf buf payload) = payload :=
  takeWhile_ne_append_zero payload _ hz

/-- C1: for every payload strictly shorter than `MSG_SIZE - 1` containing
no 0 terminator byte, a successful `Write` of the payload on one peer
followed by a successful `Read` on the other returns exactly the
payload. -/
theorem C1_write_read_roundtrip (st : TwoPeer) (payload : List Nat)
    (hA : st.bufA.length = MSG_SIZE) (hB : st.bufB.length = MSG_SIZE)
    (hlen : payload.length < MSG_SIZE - 1) (hz : 0 ∉ payload) :
    (handlerRead (handlerWrite payload st)).2 = payload := by
  have hms : MSG_SIZE = 85 := rfl
  have hfit : payload.length + 1 ≤ MSG_SIZE := by omega
  have ha_len : (strcpyBuf st.bufA payload).length = MSG_SIZE := by
    simp only [strcpyBuf, List.length_append, List.length_cons,
      List.length_drop, hA]
    omega
  have htake : (strcpyBuf st.bufA payload).take MSG_SIZE =
      strcpyBuf st.bufA payload := by
    rw [← ha_len, List.take_length]
  have hdropB : st.bufB.drop MSG_SIZE = [] := by
    rw [← hB, List.drop_length]
  have hdropA : (strcpyBuf st.bufA payload).drop MSG_SIZE = [] := by
    rw [← ha_len, List.drop_length]
  simp only [handlerWrite, handlerRead, rdmaCopy, htake, hdropB, hdropA,
    List.append_nil]
  exact goString_strcpy _ _ hz

/-- Witness for C1 on zero-initialized buffers and the payload "hi". -/
theorem C1_write_read_roundtrip_witness :
    (handlerRead (handlerWrite [104, 105]
      { bufA := List.replicate MSG_SIZE 0,
        bufB := List.replicate MSG_SIZE 0 })).2 = [104, 105] :=
  C1_write_read_roundtrip _ _ (by simp) (by simp) (by decide) (by decide)

/-- One result of a `read(sock, remote_data, xfer_size)` call inside
`sock_sync_data`'s receive loop: a positive read delivering `bytes`, a
read returning 0 (stream end), or a negative error code. -/
inductive ReadEv where
  | data (bytes : List Nat)
  | eof
  | readErr (code : Int)
  deriving DecidableEq, Repr

/-- The loop state of `sock_sync_data`: the `rc` accumulator, the
cumulative `total_read_bytes`, and the contents of `remote_data`. -/
structure SyncSt where
  rc : Int
  total : Nat
  buf : List Nat
  deriving DecidableEq, Repr

/-- A read result of `bytes` placed at offset 0 of the output block: the
call at part_003 line 150 always passes the unadvanced `remote_data`
pointer, so each delivery overwrites the start of the buffer. -/
def writeAt0 (bytes buf : List Nat) : List Nat :=
  bytes ++ buf.drop bytes.length

/-- One iteration opportunity of the receive loop (part_003 lines
148-155). The body runs only while `rc == 0` and
`total_read_bytes < xfer_size`; a positive read advances only the
cumulative count (the buffer pointer stays at offset 0), a zero read
stores 0 into `rc` (leaving the state unchanged), and a negative read
stores the error code into `rc`. -/
def sync_read_step (xfer : Nat) (st : SyncSt) (ev : ReadEv) : SyncSt :=
  if st.rc = 0 ∧ st.total < xfer then
    match ev with
    | .data bytes =>
        { st with total := st.total + bytes.length,
                  buf := writeAt0 bytes st.buf }
    | .eof => st
    | .readErr c => { st with rc := c }
  else st

/-- `sock_sync_data(sock, xfer_size, local_data, remote_data)` (part_003
lines 137-157) driven by a schedule: `writeRet` is the return value of
the single `write(sock, local_data, xfer_size)` call, `reads` the
successive results of the `read` calls the loop gets to issue; `rc` is
set to `writeRet` when fewer than `xfer_size` bytes were written and to
0 otherwise. Returns the final loop state. -/
def sock_sync_data (xfer : Nat) (writeRet : Int) (initBuf : List Nat)
    (reads : List ReadEv) : SyncSt :=
  let rc0 : Int := if writeRet < (xfer : Int) then writeRet else 0
  reads.foldl (sync_read_step xfer) { rc := rc0, total := 0, buf := initBuf }

/-- Outcome after a finite schedule: either the call has returned with
code `rc` and output block `buf`, or the loop is still blocked waiting
to issue another `read`. -/
inductive SyncOutcome where
  | done (rc : Int) (buf : List Nat)
  | waiting
  deriving DecidableEq, Repr

/-- Classify the state `sock_sync_data` reaches on a schedule. -/
def sync_outcome (xfer : Nat) (writeRet : Int) (initBuf : List Nat)
    (reads : List ReadEv) : SyncOutcome :=
  let st := sock_sync_data xfer writeRet initBuf reads
  if st.rc = 0 ∧ st.total < xfer then .waiting else .done st.rc st.buf

theorem foldl_sync_frozen (xfer : Nat) (evs : List ReadEv) (st : SyncSt)
    (h : st.rc ≠ 0) : evs.foldl (sync_read_step xfer) st = st := by
  induction evs with
  | nil => rfl
  | cons ev evs ih =>
    have hstep : sync_read_step xfer st ev = st := by
      simp [sync_read_step, h]
    rw [List.foldl_cons, hstep, ih]

/-- C5 counterexample: on a 2-byte exchange whose stream delivers one
byte and then ends (each further `read` returns 0), `sock_sync_data`
does not return an error — after the schedule it is still waiting, and a
zero read leaves the loop state exactly unchanged, so the loop spins
forever instead of failing as the claim states. -/
theorem C5_counterexample :
    sync_outcome 2 2 [9, 9] [.data [1], .eof, .eof] = .waiting ∧
    sync_read_step 2 { rc := 0, total := 1, buf := [1, 9] } .eof =
      { rc := 0, total := 1, buf := [1, 9] } := by
  constructor
  · rfl
  · rfl

/-- C5 amended: the exchange issues a single `write` of the whole block
and returns the short (nonzero) count without entering the read loop
when fewer bytes than requested were written; a read delivering all
`xfer` bytes at once completes the exchange with return value 0 and the
delivered block at the start of the output buffer; a negative read
result is returned as the error; but a read returning 0 (premature
stream end) leaves the loop state unchanged, so the loop retries forever
rather than returning an error. -/
theorem C5_sync_exchange (xfer : Nat) (w c : Int) (buf bytes : List Nat)
    (evs : List ReadEv) (st : SyncSt)
    (hw : w < (xfer : Int)) (hw0 : w ≠ 0) (hb : bytes.length = xfer)
    (hc : c < 0) (hst : st.rc = 0) (ht : st.total < xfer) :
    sync_outcome xfer w buf evs = .done w buf ∧
    sync_outcome xfer (xfer : Int) buf [.data bytes] =
      .done 0 (writeAt0 bytes buf) ∧
    sync_outcome xfer (xfer : Int) buf (.readErr c :: evs) = .done c buf ∧
    sync_read_step xfer st .eof = st := by
  have hxpos : 0 < xfer := Nat.lt_of_le_of_lt (Nat.zero_le _) ht
  have hnotlt : ¬ ((xfer : Int) < (xfer : Int)) := lt_irrefl _
  refine ⟨?_, ?_, ?_, ?_⟩
  · have hfrozen := foldl_sync_frozen xfer evs
      { rc := w, total := 0, buf := buf } hw0
    simp only [sync_outcome, sock_sync_data, if_pos hw, hfrozen]
    simp [hw0]
  · simp only [sync_outcome, sock_sync_data, if_neg hnotlt]
    simp [sync_read_step, hxpos, hb]
  · have hc0 : c ≠ 0 := ne_of_lt hc
    have hstep : sync_read_step xfer { rc := 0, total := 0, buf := buf }
        (.readErr c) = { rc := c, total := 0, buf := buf } := by
      simp [sync_read_step, hxpos]
    have hfrozen := foldl_sync_frozen xfer evs
      { rc := c, total := 0, buf := buf } hc0
    simp only [sync_outcome, sock_sync_data, if_neg hnotlt, List.foldl_cons,
      hstep, hfrozen]
    simp [hc0]
  · simp [sync_read_step, hst, ht]

/-- Witness for C5 amended at `xfer = 2`. -/
theorem C5_sync_exchange_witness :
    sync_outcome 2 1 [9, 9] [.eof] = .done 1 [9, 9] ∧
    sync_outcome 2 2 [9, 9] [.data [5, 6]] = .done 0 (writeAt0 [5, 6] [9, 9]) ∧
    sync_outcome 2 2 [9, 9] [.readErr (-1), .eof] = .done (-1) [9, 9] ∧
    sync_read_step 2 { rc := 0, total := 0, buf := [9, 9] } .eof =
      { rc := 0, total := 0, buf := [9, 9] } :=
  C5_sync_exchange 2 1 (-1) [9, 9] [5, 6] [.eof]
    { rc := 0, total := 0, buf := [9, 9] }
    (by decide) (by decide) (by decide) (by decide) rfl (by decide)

/-- The contents of the output block after the receive loop consumes the
peer's bytes delivered as the chunk list `cs`: every chunk lands at
offset 0 of the block. -/
def recvRun (initBuf : List Nat) (cs : List (List Nat)) : List Nat :=
  cs.foldl (fun b c => writeAt0 c b) initBuf

theorem sync_buf_runs_chunks (xfer : Nat) :
    ∀ (cs : List (List Nat)) (st : SyncSt), st.rc = 0 →
      st.total + (cs.map List.length).sum = xfer →
      (∀ c ∈ cs, c ≠ []) →
      (cs.map ReadEv.data).foldl (sync_read_step xfer) st =
        { rc := 0, total := xfer, buf := recvRun st.buf cs }
  | [], st, hrc, hsum, _ => by
    obtain ⟨rc, total, buf⟩ := st
    simp only [List.map_nil, List.sum_nil, Nat.add_zero] at hsum
    simp_all [recvRun]
  | c :: cs, st, hrc, hsum, hne => by
    have hcne : c ≠ [] := hne c (List.mem_cons_self _ _)
    have hclen : 0 < c.length := List.length_pos.mpr hcne
    have hlt : st.total < xfer := by
      simp only [List.map_cons, List.sum_cons] at hsum
      omega
    have hstep : sync_read_step xfer st (.data c) =
        { rc := 0, total := st.total + c.length,
          buf := writeAt0 c st.buf } := by
      obtain ⟨rc, total, buf⟩ := st
      simp_all [sync_read_step]
    have hrest := sync_buf_runs_chunks xfer cs
      { rc := 0, total := st.total + c.length, buf := writeAt0 c st.buf }
      rfl
      (by simp only [List.map_cons, List.sum_cons] at hsum; simpa using by omega)
      (fun d hd => hne d (List.mem_cons_of_mem _ hd))
    rw [List.map_cons, List.foldl_cons, hstep, hrest]
    simp [recvRun]

theorem writeAt0_length (c b : List Nat) (h : c.length ≤ b.length) :
    (writeAt0 c b).length = b.length := by
  simp only [writeAt0, List.length_append, List.length_drop]
  omega

theorem recvRun_last_unwritten :
    ∀ (cs : List (List Nat)) (b : List Nat),
      (∀ c ∈ cs, c.length < b.length) →
      (recvRun b cs).length = b.length ∧
      (recvRun b cs)[b.length - 1]? = b[b.length - 1]?
  | [], b, _ => ⟨rfl, rfl⟩
  | c :: cs, b, h => by
    have hc : c.length < b.length := h c (List.mem_cons_self _ _)
    have hlen : (writeAt0 c b).length = b.length :=
      writeAt0_length c b (Nat.le_of_lt hc)
    have hrest := recvRun_last_unwritten cs (writeAt0 c b)
      (fun d hd => hlen ▸ h d (List.mem_cons_of_mem _ hd))
    have hrun : recvRun b (c :: cs) = recvRun (writeAt0 c b) cs := by
      simp [recvRun]
    have hle : c.length ≤ b.length - 1 := by omega
    have hstep : (writeAt0 c b)[b.length - 1]? = b[b.length - 1]? := by
      rw [writeAt0, List.getElem?_append_right hle, List.getElem?_drop]
      congr 1
      omega
    rw [hlen] at hrest
    exact ⟨by rw [hrun, hrest.1], by rw [hrun, hrest.2, hstep]⟩

/-- C9: in `sock_sync_data`'s receive loop, every read writes to offset 0
of the output block (so the buffer the loop produces is `recvRun`, the
fold of offset-0 overwrites, with only the cumulative count advancing),
and the returned remote block is guaranteed to equal the byte sequence
the peer sent exactly when all bytes arrive in a single read: a single
full-length read reproduces the sent block for every initial buffer,
while for any delivery split across two or more reads some buffer
contents are overwritten or left stale and the result can differ. -/
theorem C9_recv_loop_overwrite (xfer : Nat) (cs : List (List Nat))
    (initBuf : List Nat) (hcs : cs ≠ []) (hne : ∀ c ∈ cs, c ≠ [])
    (hsum : (cs.map List.length).sum = xfer) :
    (sock_sync_data xfer (xfer : Int) initBuf (cs.map ReadEv.data)).buf =
      recvRun initBuf cs ∧
    ((∀ ib : List Nat, ib.length = cs.flatten.length →
        recvRun ib cs = cs.flatten) ↔ cs.length = 1) := by
  constructor
  · have hnotlt : ¬ ((xfer : Int) < (xfer : Int)) := lt_irrefl _
    have hrun := sync_buf_runs_chunks xfer cs
      { rc := 0, total := 0, buf := initBuf } rfl (by simpa using hsum) hne
    simp only [sock_sync_data, if_neg hnotlt, hrun]
  · constructor
    · intro H
      cases cs with
      | nil => exact absurd rfl hcs
      | cons a cs2 =>
        cases cs2 with
        | nil => rfl
        | cons b t =>
          exfalso
          have ha : a ≠ [] := hne a (by simp)
          have hb : b ≠ [] := hne b (by simp)
          have hal : 0 < a.length := List.length_pos.mpr ha
          have hbl : 0 < b.length := List.length_pos.mpr hb
          have hnlen : (a :: b :: t).flatten.length =
              a.length + (b.length + (t.map List.length).sum) := by
            simp [List.length_flatten]
          have hlt : (a :: b :: t).flatten.length - 1 <
              (a :: b :: t).flatten.length := by omega
          obtain ⟨x, hx⟩ : ∃ v,
              (a :: b :: t).flatten[(a :: b :: t).flatten.length - 1]? =
                some v := by
            rw [List.getElem?_eq_getElem hlt]
            exact ⟨_, rfl⟩
          have hiblen : ((a :: b :: t).flatten.set
              ((a :: b :: t).flatten.length - 1) (x + 1)).length =
              (a :: b :: t).flatten.length := List.length_set _ _ _
          have hbound : ∀ c ∈ a :: b :: t, c.length <
              ((a :: b :: t).flatten.set
                ((a :: b :: t).flatten.length - 1) (x + 1)).length := by
            rw [hiblen, hnlen]
            intro c hc
            rcases List.mem_cons.mp hc with rfl | hc2
            · omega
            · rcases List.mem_cons.mp hc2 with rfl | hc3
              · omega
              · have hcle : c.length ≤ (t.map List.length).sum :=
                  List.single_le_sum (fun y _ => Nat.zero_le y) _
                    (List.mem_map_of_mem List.length hc3)
                omega
          have hpres := (recvRun_last_unwritten (a :: b :: t) _ hbound).2
          have hH := H _ hiblen
          rw [hH, hiblen] at hpres
          rw [hx, List.getElem?_set_eq_of_lt (x + 1) hlt] at hpres
          simp at hpres
    · intro h1
      obtain ⟨c, rfl⟩ := List.length_eq_one.mp h1
      intro ib hib
      have hflat : ([c] : List (List Nat)).flatten = c := by simp
      rw [hflat] at hib ⊢
      simp only [recvRun, List.foldl_cons, List.foldl_nil, writeAt0]
      rw [← hib, List.drop_length, List.append_nil]

/-- Witness for C9 on a two-chunk delivery of a 2-byte exchange. -/
theorem C9_recv_loop_overwrite_witness :
    (sock_sync_data 2 (2 : Int) [9, 9] ([[1], [2]].map ReadEv.data)).buf =
      recvRun [9, 9] [[1], [2]] :=
  (C9_recv_loop_overwrite 2 [[1], [2]] [9, 9] (by decide) (by decide)
    (by decide)).1

/-- `MAX_POLL_CQ_TIMEOUT` (rdma_operations.h): the completion-poll
wall-clock timeout in milliseconds. -/
def MAX_POLL_CQ_TIMEOUT : Nat := 2000

/-- `IBV_WC_SUCCESS`, the success completion status (value 0). -/
def IBV_WC_SUCCESS : Nat := 0

/-- One iteration of `poll_completion`'s do-while loop: `ibv_poll_cq`
returned no completion (with the wall-clock reading taken right after),
found one completion carrying `status`, or failed with a negative
return. -/
inductive PollEv where
  | empty (t : Nat)
  | found (status : Nat) (t : Nat)
  | pollFail (t : Nat)
  deriving DecidableEq, Repr

/-- `poll_completion(res)` (part_003 lines 180-223) over a schedule of
poll results: spin while `ibv_poll_cq` returns 0 and the elapsed
wall-clock time stays below `MAX_POLL_CQ_TIMEOUT`; then return 1 on a
negative poll result, 1 on a timeout with no completion, 1 on a
completion with non-success status, and 0 on a completion with
`IBV_WC_SUCCESS`. An exhausted schedule stands for a completion queue
that stays empty until the timeout elapses. -/
def poll_completion (startT : Nat) : List PollEv → Int
  | [] => 1
  | .empty t :: rest =>
      if t - startT < MAX_POLL_CQ_TIMEOUT then poll_completion startT rest
      else 1
  | .found status _ :: _ => if status = IBV_WC_SUCCESS then 0 else 1
  | .pollFail _ :: _ => 1

/-- Specification-side predicate, following the spec's words, to be
compared with `poll_completion`: the poll sequence reaches, while the
loop is still within its timeout window, a completion carrying success
status. -/
def pollSpecSuccess (startT : Nat) : List PollEv → Bool
  | [] => false
  | .empty t :: rest =>
      if t - startT < MAX_POLL_CQ_TIMEOUT then pollSpecSuccess startT rest
      else false
  | .found status _ :: _ => status = IBV_WC_SUCCESS
  | .pollFail _ :: _ => false

/-- C8: `poll_completion` returns 0 exactly when a completion with
success status is polled before the 2000 ms timeout elapses; a timeout
with zero completions, a failed poll, and a completion carrying a
non-success status all collapse to the same hard-error result 1, with no
finer distinction surfaced. -/
theorem C8_poll_completion_contract (startT : Nat) (evs : List PollEv) :
    poll_completion startT evs =
      (if pollSpecSuccess startT evs then 0 else 1) := by
  induction evs with
  | nil => rfl
  | cons ev rest ih =>
    cases ev with
    | empty t =>
      by_cases h : t - startT < MAX_POLL_CQ_TIMEOUT <;>
        simp [poll_completion, pollSpecSuccess, h, ih]
    | found status t =>
      by_cases h : status = IBV_WC_SUCCESS <;>
        simp [poll_completion, pollSpecSuccess, h]
    | pollFail t => simp [poll_completion, pollSpecSuccess]

/-- `struct config_t`: device name, peer host name (`none` in the server
role), TCP port, local InfiniBand port, GID index (sentinel `-1`
disables global addressing). -/
structure ConfigT where
  dev_name : Option String
  server_name : Option String
  tcp_port : Nat
  ib_port : Nat
  gid_idx : Int
  deriving DecidableEq, Repr

/-- The global `config` initializer (part_003 lines 2-7). -/
def defaultConfig : ConfigT :=
  { dev_name := none, server_name := none, tcp_port := 19875, ib_port := 1,
    gid_idx := -1 }

/-- The attribute record built by `modify_qp_to_init` (part_003 lines
658-685): target state INIT, the configured local RDMA port,
partition-key index 0, local-write + remote-read + remote-write
access. -/
structure InitAttr where
  qp_state : String
  port_num : Nat
  pkey_index : Nat
  qp_access_flags : List String
  deriving DecidableEq, Repr

/-- `modify_qp_to_init(qp)`: the attributes passed to `ibv_modify_qp`. -/
def modify_qp_to_init_attr (config : ConfigT) : InitAttr :=
  { qp_state := "INIT"
    port_num := config.ib_port
    pkey_index := 0
    qp_access_flags := ["LOCAL_WRITE", "REMOTE_READ", "REMOTE_WRITE"] }

/-- The `ibv_ah_attr` address-handle block built by `modify_qp_to_rtr`
(part_003 lines 736-767). -/
structure AhAttr where
  is_global : Nat
  dlid : Nat
  sl : Nat
  src_path_bits : Nat
  port_num : Nat
  grh_dgid : List Nat
  grh_flow_label : Nat
  grh_hop_limit : Nat
  grh_sgid_index : Int
  grh_traffic_class : Nat
  deriving DecidableEq, Repr

/-- The attribute record built by `modify_qp_to_rtr` (part_003 lines
703-777). -/
structure RtrAttr where
  qp_state : String
  path_mtu : String
  dest_qp_num : Nat
  rq_psn : Nat
  max_dest_rd_atomic : Nat
  min_rnr_timer : Nat
  ah_attr : AhAttr
  deriving DecidableEq, Repr

/-- `modify_qp_to_rtr(qp, remote_qpn, dlid, dgid)`: the base address
handle uses the configured `ib_port` (line 746); when a GID index ≥ 0 is
configured, the global-routing block then overrides `is_global` to 1 and
`port_num` to the constant 1 (line 756), copies 16 `dgid` bytes, and
sets flow label 0, hop limit 1, the configured source-GID index, and
traffic class 0. Fields the `memset` leaves untouched stay 0. -/
def modify_qp_to_rtr_attr (config : ConfigT) (remote_qpn dlid : Nat)
    (dgid : List Nat) : RtrAttr :=
  let base : AhAttr :=
    { is_global := 0, dlid := dlid, sl := 0, src_path_bits := 0,
      port_num := config.ib_port, grh_dgid := List.replicate 16 0,
      grh_flow_label := 0, grh_hop_limit := 0, grh_sgid_index := 0,
      grh_traffic_class := 0 }
  let ah : AhAttr :=
    if 0 ≤ config.gid_idx then
      { base with
        is_global := 1, port_num := 1, grh_dgid := dgid.take 16,
        grh_flow_label := 0, grh_hop_limit := 1,
        grh_sgid_index := config.gid_idx, grh_traffic_class := 0 }
    else base
  { qp_state := "RTR", path_mtu := "MTU_256", dest_qp_num := remote_qpn,
    rq_psn := 0, max_dest_rd_atomic := 1, min_rnr_timer := 18,
    ah_attr := ah }

/-- C10: whenever a GID index ≥ 0 is configured, `modify_qp_to_rtr` sets
the address-handle port number to the constant 1, overriding the
configured local RDMA port, even though `modify_qp_to_init` uses the
configured port for the RESET→INIT transition; without a GID index the
address handle keeps the configured port. -/
theorem C10_rtr_port_override (cfg cfg2 : ConfigT)
    (qpn dlid qpn2 dlid2 : Nat) (dgid dgid2 : List Nat)
    (hg : 0 ≤ cfg.gid_idx) (hg2 : cfg2.gid_idx < 0) :
    (modify_qp_to_rtr_attr cfg qpn dlid dgid).ah_attr.port_num = 1 ∧
    (modify_qp_to_init_attr cfg).port_num = cfg.ib_port ∧
    (modify_qp_to_rtr_attr cfg2 qpn2 dlid2 dgid2).ah_attr.port_num =
      cfg2.ib_port := by
  refine ⟨?_, rfl, ?_⟩
  · simp [modify_qp_to_rtr_attr, hg]
  · simp [modify_qp_to_rtr_attr, not_le.mpr hg2]

/-- A test configuration with `ib_port = 2` and GID addressing on. -/
def cfgGidOn : ConfigT :=
  { dev_name := none, server_name := none, tcp_port := 19875, ib_port := 2,
    gid_idx := 0 }

/-- A test configuration with `ib_port = 2` and GID addressing off. -/
def cfgGidOff : ConfigT :=
  { dev_name := none, server_name := none, tcp_port := 19875, ib_port := 2,
    gid_idx := -1 }

/-- Witness for C10 with `ib_port = 2`: the override to 1 is visible. -/
theorem C10_rtr_port_override_witness :
    (modify_qp_to_rtr_attr cfgGidOn 5 7
      (List.replicate 16 3)).ah_attr.port_num = 1 ∧
    (modify_qp_to_init_attr cfgGidOn).port_num = 2 ∧
    (modify_qp_to_rtr_attr cfgGidOff 5 7
      (List.replicate 16 3)).ah_attr.port_num = 2 :=
  C10_rtr_port_override cfgGidOn cfgGidOff 5 7 5 7 (List.replicate 16 3)
    (List.replicate 16 3) (by decide) (by decide)

/-- The `my_gid` value `connect_qp` ends up copying into the local
descriptor (part_003 lines 863-890): `my_gid` is filled from
`ibv_query_gid` when a GID index is configured, but the `memset` at line
879 is not covered by the `else` branch (which guards only the
`fprintf`), so it zeroes `my_gid` unconditionally afterwards. -/
def connect_qp_local_gid (config : ConfigT)
    (queriedGid uninitGid : List Nat) : List Nat :=
  let _afterQuery : List Nat :=
    if 0 ≤ config.gid_idx then queriedGid else uninitGid
  List.replicate 16 0

/-- The local descriptor `connect_qp` encodes and transmits (part_003
lines 882-890), given the endpoint's own buffer address, remote key,
queue-pair number, local identifier, queried GID and the uninitialized
initial `my_gid` contents. -/
def connect_qp_local_descriptor (config : ConfigT)
    (bufAddr rkey qpNum lid : Nat)
    (queriedGid uninitGid : List Nat) : CmConData :=
  encodeLocalConData
    { addr := bufAddr, rkey := rkey, qp_num := qpNum, lid := lid,
      gid := connect_qp_local_gid config queriedGid uninitGid }

/-- C3 (code behavior): the 16-byte GID field of the transmitted local
descriptor is all-zero for every configuration — including when GID
addressing is selected with `gid_idx >= 0` — because the `memset` meant
for the no-GID branch runs unconditionally and clobbers the queried
GID. -/
theorem C3_descriptor_gid_always_zero (config : ConfigT)
    (bufAddr rkey qpNum lid : Nat) (queriedGid uninitGid : List Nat) :
    (connect_qp_local_descriptor config bufAddr rkey qpNum lid queriedGid
      uninitGid).gid = List.replicate 16 0 := rfl

/-- The externally visible steps of a successful `connect_qp` run
(part_003 lines 847-967), in program order. -/
inductive ConnectStep where
  | sockExchange
  | qpToInit
  | postRecv
  | qpToRtr
  | qpToRts
  | barrierExchange
  deriving DecidableEq, Repr

/-- The step sequence of a successful `connect_qp`: metadata exchange,
RESET→INIT, a receive work request posted only when `config.server_name`
is set (part_003 lines 934-942), INIT→RTR, RTR→RTS, final 1-byte
barrier. -/
def connect_qp_steps (config : ConfigT) : List ConnectStep :=
  [ConnectStep.sockExchange, ConnectStep.qpToInit] ++
    (if config.server_name.isSome then [ConnectStep.postRecv] else []) ++
    [ConnectStep.qpToRtr, ConnectStep.qpToRts, ConnectStep.barrierExchange]

/-- Role assignment by `initRDMAConnection` (handler.go lines 242-248): a
non-empty peer address means client role and sets `server_name`; an
empty address means server role and clears it. -/
def initRDMAConnection_config (ip : String) (config : ConfigT) : ConfigT :=
  if ip ≠ "" then { config with server_name := some ip }
  else { config with server_name := none }

/-- C4 counterexample: under the default configuration the server-role
endpoint (empty peer address) posts no receive work request during
connect while the client-role endpoint posts one — the opposite of the
claim — because the post is guarded by `config.server_name`, which is
set exactly in the client role. -/
theorem C4_counterexample :
    ¬ (((connect_qp_steps (initRDMAConnection_config "" defaultConfig)).count
          ConnectStep.postRecv = 1) ∧
       ((connect_qp_steps
          (initRDMAConnection_config "10.0.0.1" defaultConfig)).count
          ConnectStep.postRecv = 0)) := by
  decide

/-- C4 amended: during connection establishment, after RESET→INIT and
before INIT→RTR, the endpoint in the client role — and only that
endpoint — posts exactly one receive work request; the endpoint in the
server role posts none. -/
theorem C4_client_posts_receive (ip : String) (config : ConfigT)
    (hip : ip ≠ "") :
    connect_qp_steps (initRDMAConnection_config ip config) =
      [ConnectStep.sockExchange, ConnectStep.qpToInit, ConnectStep.postRecv,
       ConnectStep.qpToRtr, ConnectStep.qpToRts,
       ConnectStep.barrierExchange] ∧
    connect_qp_steps (initRDMAConnection_config "" config) =
      [ConnectStep.sockExchange, ConnectStep.qpToInit, ConnectStep.qpToRtr,
       ConnectStep.qpToRts, ConnectStep.barrierExchange] := by
  constructor
  · simp [connect_qp_steps, initRDMAConnection_config, hip]
  · simp [connect_qp_steps, initRDMAConnection_config]

/-- Witness for C4 amended with a concrete client address. -/
theorem C4_client_posts_receive_witness :
    connect_qp_steps (initRDMAConnection_config "10.0.0.1" defaultConfig) =
      [ConnectStep.sockExchange, ConnectStep.qpToInit, ConnectStep.postRecv,
       ConnectStep.qpToRtr, ConnectStep.qpToRts,
       ConnectStep.barrierExchange] ∧
    connect_qp_steps (initRDMAConnection_config "" defaultConfig) =
      [ConnectStep.sockExchange, ConnectStep.qpToInit, ConnectStep.qpToRtr,
       ConnectStep.qpToRts, ConnectStep.barrierExchange] :=
  C4_client_posts_receive "10.0.0.1" defaultConfig (by decide)

/-- The releasable components of a `struct resources`, plus the device
list local to `resources_create`. -/
inductive Release where
  | qp
  | mr
  | buf
  | cq
  | pd
  | ib_ctx
  | dev_list
  | sock
  deriving DecidableEq, Repr

/-- The populated/unpopulated view of a `struct resources`: handle
fields are null (`false`) until acquired, and `sock` is a file
descriptor, valid when nonnegative. -/
structure Res where
  sock : Int
  ib_ctx : Bool
  pd : Bool
  cq : Bool
  buf : Bool
  mr : Bool
  qp : Bool
  deriving DecidableEq, Repr

/-- `resources_init(res)` (part_003 lines 349-354): zero everything and
set `sock` to `-1`. -/
def resources_init : Res :=
  { sock := -1, ib_ctx := false, pd := false, cq := false, buf := false,
    mr := false, qp := false }

/-- Success/failure of each fallible step of `resources_create`, in
program order: socket connect, `ibv_get_device_list`, nonzero device
count, device-name match, `ibv_open_device`, `ibv_query_port`,
`ibv_alloc_pd`, `ibv_create_cq`, `malloc`, `ibv_reg_mr`,
`ibv_create_qp`. -/
structure CreateEnv where
  sockOk : Bool
  devListOk : Bool
  devicesFound : Bool
  deviceMatch : Bool
  openOk : Bool
  queryPortOk : Bool
  pdOk : Bool
  cqOk : Bool
  bufOk : Bool
  mrOk : Bool
  qpOk : Bool
  deriving DecidableEq, Repr

/-- Result of `resources_create`: the return code, the final `res`
state, the resources held at the moment control reaches the exit label
(in acquisition order), and the releases the cleanup block performed (in
its own order). -/
structure CreateOut where
  rc : Int
  res : Res
  held : List Release
  rels : List Release
  deriving DecidableEq, Repr

/-- The `resources_create_exit` cleanup block (part_003 lines 595-641):
run only when `rc` is nonzero; releases, in order, queue pair, memory
region, buffer, completion queue, protection domain, device context,
device list and socket — each only if currently populated — and resets
every released field to its unpopulated value. -/
def resources_create_cleanup (rc : Int) (r : Res) (devList : Bool) :
    Res × List Release :=
  if rc = 0 then (r, [])
  else
    let s1 : Res × List Release :=
      if r.qp then ({ r with qp := false }, [Release.qp]) else (r, [])
    let s2 : Res × List Release :=
      if s1.1.mr then ({ s1.1 with mr := false }, s1.2 ++ [Release.mr])
      else s1
    let s3 : Res × List Release :=
      if s2.1.buf then ({ s2.1 with buf := false }, s2.2 ++ [Release.buf])
      else s2
    let s4 : Res × List Release :=
      if s3.1.cq then ({ s3.1 with cq := false }, s3.2 ++ [Release.cq])
      else s3
    let s5 : Res × List Release :=
      if s4.1.pd then ({ s4.1 with pd := false }, s4.2 ++ [Release.pd])
      else s4
    let s6 : Res × List Release :=
      if s5.1.ib_ctx then
        ({ s5.1 with ib_ctx := false }, s5.2 ++ [Release.ib_ctx])
      else s5
    let s7 : Res × List Release :=
      if devList then (s6.1, s6.2 ++ [Release.dev_list]) else s6
    let s8 : Res × List Release :=
      if 0 ≤ s7.1.sock then ({ s7.1 with sock := -1 }, s7.2 ++ [Release.sock])
      else s7
    s8

/-- Package an exit from `resources_create` through the cleanup block.
`held` lists the resources acquired and still held at the exit point, in
acquisition order; `devList` records whether the device list is still
held (it is freed early, part_003 line 484, once the device is open). -/
def createExit (rc : Int) (r : Res) (held : List Release)
    (devList : Bool) : CreateOut :=
  let out := resources_create_cleanup rc r devList
  { rc := rc, res := out.1, held := held, rels := out.2 }

/-- `resources_create(res)` (part_003 lines 372-643) on a fresh
`resources_init` state, driven by the success/failure environment. On
the client/server socket step failure the code returns `-1`, on every
later failure `1`; any failure jumps to the cleanup label. -/
def resources_create (e : CreateEnv) : CreateOut :=
  let r0 := resources_init
  if ¬ e.sockOk then createExit (-1) r0 [] false
  else
    let r1 : Res := { r0 with sock := 0 }
    if ¬ e.devListOk then createExit 1 r1 [Release.sock] false
    else if ¬ e.devicesFound then
      createExit 1 r1 [Release.sock, Release.dev_list] true
    else if ¬ e.deviceMatch then
      createExit 1 r1 [Release.sock, Release.dev_list] true
    else if ¬ e.openOk then
      createExit 1 r1 [Release.sock, Release.dev_list] true
    else
      let r2 : Res := { r1 with ib_ctx := true }
      if ¬ e.queryPortOk then
        createExit 1 r2 [Release.sock, Release.ib_ctx] false
      else if ¬ e.pdOk then
        createExit 1 r2 [Release.sock, Release.ib_ctx] false
      else
        let r3 : Res := { r2 with pd := true }
        if ¬ e.cqOk then
          createExit 1 r3 [Release.sock, Release.ib_ctx, Release.pd] false
        else
          let r4 : Res := { r3 with cq := true }
          if ¬ e.bufOk then
            createExit 1 r4
              [Release.sock, Release.ib_ctx, Release.pd, Release.cq] false
          else
            let r5 : Res := { r4 with buf := true }
            if ¬ e.mrOk then
              createExit 1 r5
                [Release.sock, Release.ib_ctx, Release.pd, Release.cq,
                 Release.buf] false
            else
              let r6 : Res := { r5 with mr := true }
              if ¬ e.qpOk then
                createExit 1 r6
                  [Release.sock, Release.ib_ctx, Release.pd, Release.cq,
                   Release.buf, Release.mr] false
              else
                let r7 : Res := { r6 with qp := true }
                createExit 0 r7
                  [Release.sock, Release.ib_ctx, Release.pd, Release.cq,
                   Release.buf, Release.mr, Release.qp] false

/-- C6: whenever `resources_create` fails at any step, every resource
acquired earlier in the call is released in the reverse of acquisition
order (the cleanup order queue pair → memory region → buffer →
completion queue → protection domain → device context → device list →
socket), every released field is reset to its unpopulated value — the
final state equals the `resources_init` state, so no handle acquired in
the call remains live — and the nonzero error is returned; on success
nothing is released. -/
theorem C6_create_unwinds_on_failure (a b c d e f g h i j k : Bool) :
    ((resources_create ⟨a, b, c, d, e, f, g, h, i, j, k⟩).rc ≠ 0 →
      (resources_create ⟨a, b, c, d, e, f, g, h, i, j, k⟩).res =
        resources_init ∧
      (resources_create ⟨a, b, c, d, e, f, g, h, i, j, k⟩).rels =
        (resources_create ⟨a, b, c, d, e, f, g, h, i, j, k⟩).held.reverse) ∧
    ((resources_create ⟨a, b, c, d, e, f, g, h, i, j, k⟩).rc = 0 →
      (resources_create ⟨a, b, c, d, e, f, g, h, i, j, k⟩).rels = []) := by
  revert a b c d e f g h i j k
  decide

/-- Witness for C6: protection-domain allocation fails after the device
context is open; the cleanup releases context then socket and leaves the
initial state. -/
theorem C6_create_unwinds_on_failure_witness :
    (resources_create
        ⟨true, true, true, true, true, true, false, true, true, true,
          true⟩).res = resources_init ∧
    (resources_create
        ⟨true, true, true, true, true, true, false, true, true, true,
          true⟩).rels =
      (resources_create
        ⟨true, true, true, true, true, true, false, true, true, true,
          true⟩).held.reverse :=
  (C6_create_unwinds_on_failure true true true true true true false true
    true true true).1 (by decide)

/-- Which individual releases fail during `resources_destroy`. -/
structure DestroyEnv where
  qpFail : Bool
  mrFail : Bool
  cqFail : Bool
  pdFail : Bool
  ctxFail : Bool
  sockFail : Bool
  deriving DecidableEq, Repr

/-- `resources_destroy(res)` (part_003 lines 984-1026): attempt a
release of each populated component in the order queue pair, memory
region, buffer (whose `free` cannot fail), completion queue, protection
domain, device context, socket; a failed release sets `rc` to 1 but the
remaining components are still attempted. Returns `rc` together with the
list of attempted releases. -/
def resources_destroy (r : Res) (e : DestroyEnv) : Int × List Release :=
  let s1 : Int × List Release :=
    if r.qp then (if e.qpFail then 1 else 0, [Release.qp]) else (0, [])
  let s2 : Int × List Release :=
    if r.mr then (if e.mrFail then 1 else s1.1, s1.2 ++ [Release.mr])
    else s1
  let s3 : Int × List Release :=
    if r.buf then (s2.1, s2.2 ++ [Release.buf]) else s2
  let s4 : Int × List Release :=
    if r.cq then (if e.cqFail then 1 else s3.1, s3.2 ++ [Release.cq])
    else s3
  let s5 : Int × List Release :=
    if r.pd then (if e.pdFail then 1 else s4.1, s4.2 ++ [Release.pd])
    else s4
  let s6 : Int × List Release :=
    if r.ib_ctx then
      (if e.ctxFail then 1 else s5.1, s5.2 ++ [Release.ib_ctx])
    else s5
  let s7 : Int × List Release :=
    if 0 ≤ r.sock then
      (if e.sockFail then 1 else s6.1, s6.2 ++ [Release.sock])
    else s6
  s7

/-- A `Res` built from populated flags; `sock` is nonnegative exactly
when the socket was opened. -/
def mkRes (sockPop ctx pd cq buf mr qp : Bool) : Res :=
  { sock := if sockPop then 0 else -1, ib_ctx := ctx, pd := pd, cq := cq,
    buf := buf, mr := mr, qp := qp }

set_option maxHeartbeats 4000000 in
/-- C7: `resources_destroy` attempts a release of exactly the populated
components — queue pair, memory region, buffer, completion queue,
protection domain, device context, socket — skipping every unpopulated
field, does not stop at the first failed release, and returns the
failure result 1 exactly when at least one attempted fallible release
failed (the buffer `free` cannot fail); otherwise it returns 0. -/
theorem C7_destroy_attempts_every_component
    (qp mr buf cq pd ctx sockPop qf mf cf pf xf sf : Bool) :
    ((resources_destroy (mkRes sockPop ctx pd cq buf mr qp)
        ⟨qf, mf, cf, pf, xf, sf⟩).2.count Release.qp =
      if qp then 1 else 0) ∧
    ((resources_destroy (mkRes sockPop ctx pd cq buf mr qp)
        ⟨qf, mf, cf, pf, xf, sf⟩).2.count Release.mr =
      if mr then 1 else 0) ∧
    ((resources_destroy (mkRes sockPop ctx pd cq buf mr qp)
        ⟨qf, mf, cf, pf, xf, sf⟩).2.count Release.buf =
      if buf then 1 else 0) ∧
    ((resources_destroy (mkRes sockPop ctx pd cq buf mr qp)
        ⟨qf, mf, cf, pf, xf, sf⟩).2.count Release.cq =
      if cq then 1 else 0) ∧
    ((resources_destroy (mkRes sockPop ctx pd cq buf mr qp)
        ⟨qf, mf, cf, pf, xf, sf⟩).2.count Release.pd =
      if pd then 1 else 0) ∧
    ((resources_destroy (mkRes sockPop ctx pd cq buf mr qp)
        ⟨qf, mf, cf, pf, xf, sf⟩).2.count Release.ib_ctx =
      if ctx then 1 else 0) ∧
    ((resources_destroy (mkRes sockPop ctx pd cq buf mr qp)
        ⟨qf, mf, cf, pf, xf, sf⟩).2.count Release.sock =
      if sockPop then 1 else 0) ∧
    ((resources_destroy (mkRes sockPop ctx pd cq buf mr qp)
        ⟨qf, mf, cf, pf, xf, sf⟩).1 =
      if (qp ∧ qf) ∨ (mr ∧ mf) ∨ (cq ∧ cf) ∨ (pd ∧ pf) ∨ (ctx ∧ xf) ∨
          (sockPop ∧ sf) then 1 else 0) := by
  revert qp mr buf cq pd ctx sockPop qf mf cf pf xf sf
  decide

end Rdma
